import Mathlib

/-!
Verification of the BitcoinWebapp ingestion and dashboard logic.

The development shallowly embeds the Python modules
`Backend/scrape_logic.py`, `Backend/scrape_logic_lambda.py`,
`Backend/app.py` and `Frontend/streamlit.py`:

* article records and market-data candles become Lean structures;
* pandas timestamp parsing (`pd.to_datetime`) and formatting
  (`strftime`) are kept abstract as function parameters, but the shape
  of the computation — including the fact that `strftime` on a `NaT`
  value raises — is embedded faithfully;
* the TextBlob polarity computation is abstracted to an optional
  rational score, `none` standing for the exception path of the
  source's `try`/`except`;
* the Supabase tables become Lean lists of records, `insert` becomes
  list append, and the routines are modelled as functions from the
  pre-state and the upstream HTTP response to the rows they write.
-/

/-- An article record as produced by `scrape_articles` and stored in the
`articles` table (the auto-generated `id` column is omitted; this system
never reads or writes it explicitly). `datetime` is `none` when the
source stores SQL NULL. -/
structure Article where
  title : String
  datetime : Option String
  author : String
  link : String
  content : String
  sentiment : String
deriving DecidableEq, Repr

/-- A 12-field Binance kline row as mapped by `insert_binance_data`
(`open_time`/`close_time` are millisecond epochs, numeric columns are
modelled as rationals). The Python field `open` is renamed `open_val`
because `open` is a Lean keyword. -/
structure Candle where
  open_time : Nat
  open_val : ℚ
  high : ℚ
  low : ℚ
  close : ℚ
  volume : ℚ
  close_time : Nat
  quote_asset_volume : ℚ
  number_of_trades : Nat
  taker_buy_base_asset_volume : ℚ
  taker_buy_quote_asset_volume : ℚ
  ignore : String
deriving DecidableEq, Repr

/-- A candle with the given open time and zeroed payload, used to build
concrete table states in witnesses and counterexamples. -/
def mkCandle (t : Nat) : Candle :=
  ⟨t, 0, 0, 0, 0, 0, t + 59999, 0, 0, 0, 0, "0"⟩

/-- `get_sentiment_label` from `scrape_logic.py` (identical in
`scrape_logic_lambda.py`): the TextBlob polarity computation is
abstracted to an optional rational; `none` models the `except` path
(unscoreable input / any computation failure), `some p` a computed
polarity `p`. -/
def get_sentiment_label (polarity : Option ℚ) : String :=
  match polarity with
  | none => "unknown"
  | some p =>
    if p > 1/10 then "positive"
    else if p < -(1/10) then "negative"
    else "neutral"

/-- Python `str.lower`, character by character. -/
def py_lower (s : String) : String :=
  ⟨s.data.map Char.toLower⟩

/-- Python `str.startswith`: the pattern's characters are a prefix of
the string's characters. -/
def py_startswith (s pat : String) : Bool :=
  pat.data.isPrefixOf s.data

/-- Python `str.strip`: remove leading and trailing whitespace. -/
def py_strip (s : String) : String :=
  ⟨((s.data.dropWhile Char.isWhitespace).reverse.dropWhile Char.isWhitespace).reverse⟩

/-- Python `s[n:]`: drop the first `n` characters. -/
def py_drop (s : String) (n : Nat) : String :=
  ⟨s.data.drop n⟩

/-- Author-name cleanup from `scrape_articles` (`scrape_logic.py`
lines 85-88): if the lower-cased name starts with `"by"`, drop the
first two characters and strip surrounding whitespace. -/
def strip_author_by (name : String) : String :=
  if py_startswith (py_lower name) "by" then py_strip (py_drop name 2) else name

/-- The dict returned by `lambda_handler` in `app.py`. -/
structure LambdaResponse where
  statusCode : Nat
  body : String
deriving DecidableEq, Repr

/-- `lambda_handler` from `app.py`: the outcome of `main()` is modelled
as `Except String Unit`, `Except.error e` carrying `str(e)` for the
exception `e` raised inside the orchestration. -/
def lambda_handler (mainResult : Except String Unit) : LambdaResponse :=
  match mainResult with
  | Except.ok _ => ⟨200, "✅ Scraping and insertion succeeded"⟩
  | Except.error e => ⟨500, "❌ An error occurred: " ++ e⟩

/-- C2: the sentiment label is `positive` exactly when the polarity is
strictly above 1/10, `negative` exactly when strictly below -1/10, and
`neutral` otherwise — in particular at exactly 1/10 and -1/10 — while a
failed or unscoreable computation yields `unknown`. -/
theorem sentiment_threshold_policy (p : ℚ) :
    (get_sentiment_label (some p) = "positive" ↔ 1/10 < p)
    ∧ (get_sentiment_label (some p) = "negative" ↔ p < -(1/10))
    ∧ (get_sentiment_label (some p) = "neutral" ↔ -(1/10) ≤ p ∧ p ≤ 1/10)
    ∧ get_sentiment_label (some (1/10)) = "neutral"
    ∧ get_sentiment_label (some (-(1/10))) = "neutral"
    ∧ get_sentiment_label none = "unknown" := by
  refine ⟨?_, ?_, ?_, by norm_num [get_sentiment_label],
    by norm_num [get_sentiment_label], rfl⟩
  · unfold get_sentiment_label
    by_cases h1 : p > 1/10
    · simp only [if_pos h1]
      exact iff_of_true trivial h1
    · simp only [if_neg h1]
      by_cases h2 : p < -(1/10)
      · simp only [if_pos h2]
        exact iff_of_false (by decide) h1
      · simp only [if_neg h2]
        exact iff_of_false (by decide) h1
  · unfold get_sentiment_label
    by_cases h1 : p > 1/10
    · simp only [if_pos h1]
      exact iff_of_false (by decide) (by intro h; linarith)
    · simp only [if_neg h1]
      by_cases h2 : p < -(1/10)
      · simp only [if_pos h2]
        exact iff_of_true trivial h2
      · simp only [if_neg h2]
        exact iff_of_false (by decide) h2
  · unfold get_sentiment_label
    by_cases h1 : p > 1/10
    · simp only [if_pos h1]
      exact iff_of_false (by decide) (fun h => absurd h1 (not_lt.mpr h.2))
    · simp only [if_neg h1]
      by_cases h2 : p < -(1/10)
      · simp only [if_pos h2]
        exact iff_of_false (by decide) (fun h => absurd h2 (not_lt.mpr h.1))
      · simp only [if_neg h2]
        exact iff_of_true trivial ⟨not_lt.mp h2, not_lt.mp h1⟩

/-- Witness for C2: a polarity of 1/5 is labelled positive. -/
theorem sentiment_threshold_policy_witness :
    get_sentiment_label (some (1/5)) = "positive" :=
  (sentiment_threshold_policy (1/5)).1.mpr (by norm_num)

/-- C6: `"By Jane Doe"` is stripped to `"Jane Doe"`, and any author
name whose lower-casing does not start with `"by"` is returned
unchanged. -/
theorem author_by_stripping :
    strip_author_by "By Jane Doe" = "Jane Doe"
    ∧ ∀ s : String, py_startswith (py_lower s) "by" = false → strip_author_by s = s := by
  constructor
  · decide
  · intro s h
    unfold strip_author_by
    simp [h]

/-- Witness for C6: `"Jane Doe"` carries no `"by"` prefix and is
returned unchanged. -/
theorem author_by_stripping_witness :
    strip_author_by "Jane Doe" = "Jane Doe" :=
  author_by_stripping.2 "Jane Doe" (by decide)

/-- C7: the entry point maps a completed orchestration to status 200
with a fixed success message, and any exception to status 500 with a
message containing the exception's text; being a total function of the
orchestration outcome, it lets no exception escape. -/
theorem lambda_handler_status :
    lambda_handler (Except.ok ()) = ⟨200, "✅ Scraping and insertion succeeded"⟩
    ∧ ∀ e : String, (lambda_handler (Except.error e)).statusCode = 500
        ∧ e.data <:+: (lambda_handler (Except.error e)).body.data := by
  refine ⟨rfl, fun e => ⟨rfl, ?_⟩⟩
  show e.data <:+: ("❌ An error occurred: " ++ e).data
  have h : ("❌ An error occurred: " ++ e).data
      = "❌ An error occurred: ".data ++ e.data := rfl
  rw [h]
  exact (List.suffix_append _ _).isInfix

/-- Witness for C7: a concrete exception text appears in the failure
body. -/
theorem lambda_handler_status_witness :
    (lambda_handler (Except.error "boom")).statusCode = 500
    ∧ "boom".data <:+: (lambda_handler (Except.error "boom")).body.data :=
  lambda_handler_status.2 "boom"

/-- The upstream market-data HTTP response: a status code and, when the
JSON body is a valid array of kline rows, those rows (`none` models a
body on which the `pd.DataFrame(resp.json(), columns=...)` construction
raises). -/
structure BinanceResponse where
  status_code : Nat
  body : Option (List Candle)
deriving DecidableEq, Repr

/-- Maximum stored `open_time`, as read by the
`order("open_time", desc=True).limit(1)` query (`none` on an empty
table). -/
def latest_open_time : List Candle → Option Nat
  | [] => none
  | c :: rest =>
    match latest_open_time rest with
    | none => some c.open_time
    | some t => some (max c.open_time t)

/-- `insert_binance_data` from `scrape_logic.py` (lines 163-193), as the
rows it writes. The routine never consults the status code: it builds
the set of all stored `open_time`s and keeps every fetched row whose
`open_time` is not among them (`df[~df["open_time"].isin(existing)]`).
When the body is not a kline array the DataFrame construction raises,
modelled by `Except.error`. -/
def insert_binance_data (stored : List Candle) (resp : BinanceResponse) :
    Except String (List Candle) :=
  match resp.body with
  | none => Except.error "DataFrame construction failed"
  | some fetched =>
    Except.ok (fetched.filter
      (fun c => !(stored.any (fun s => s.open_time == c.open_time))))

/-- `insert_binance_data` from `scrape_logic_lambda.py` (lines 201-275),
as the rows it writes. A non-200 status returns early; otherwise, when
the table has a latest `open_time`, only fetched rows strictly after it
are kept (`df[df["open_time"] > latest_ts]`), and when the table is
empty all fetched rows are kept. Any exception (including a bad body)
is swallowed by the outer handler, writing nothing. -/
def insert_binance_data_lambda (stored : List Candle) (resp : BinanceResponse) :
    List Candle :=
  if resp.status_code ≠ 200 then []
  else
    match resp.body with
    | none => []
    | some fetched =>
      match latest_open_time stored with
      | some t => fetched.filter (fun c => t < c.open_time)
      | none => fetched

/-- `latest_open_time` returns `none` only on the empty table. -/
theorem latest_open_time_eq_none {l : List Candle}
    (h : latest_open_time l = none) : l = [] := by
  cases l with
  | nil => rfl
  | cons c rest =>
    simp only [latest_open_time] at h
    cases hr : latest_open_time rest <;> rw [hr] at h <;> exact Option.noConfusion h

/-- Members of a list bound the value computed by `latest_open_time`. -/
theorem le_latest_open_time : ∀ (stored : List Candle) (c : Candle) (t : Nat),
    c ∈ stored → latest_open_time stored = some t → c.open_time ≤ t := by
  intro stored
  induction stored with
  | nil => intro c t hc _; cases hc
  | cons d rest ih =>
    intro c t hc ht
    simp only [latest_open_time] at ht
    cases hrest : latest_open_time rest with
    | none =>
      rw [hrest] at ht
      injection ht with ht
      subst ht
      rcases List.mem_cons.mp hc with h | h
      · subst h; exact le_refl _
      · rw [latest_open_time_eq_none hrest] at h; cases h
    | some u =>
      rw [hrest] at ht
      injection ht with ht
      subst ht
      rcases List.mem_cons.mp hc with h | h
      · subst h; exact le_max_left _ _
      · exact le_trans (ih c u h hrest) (le_max_right _ _)

/-- Counterexample to C1: with candles stored at times 10 and 30, the
basic `insert_binance_data` writes a fetched gap candle at time 20 even
though 20 is not strictly greater than the stored maximum 30 — the
routine filters by set membership of `open_time`, not by comparison
with the maximum. -/
theorem binance_basic_writes_gap_candle :
    insert_binance_data [mkCandle 10, mkCandle 30] ⟨200, some [mkCandle 20]⟩
      = Except.ok [mkCandle 20]
    ∧ latest_open_time [mkCandle 10, mkCandle 30] = some 30
    ∧ ¬ (30 < (mkCandle 20).open_time) :=
  ⟨rfl, rfl, by decide⟩

/-- C1 as amended: in the lambda variant a fetched candle is written
iff its `open_time` is strictly greater than the stored maximum (all
candles are written when the table is empty); in the basic variant a
fetched candle is written iff its `open_time` equals no stored
`open_time`; in both variants, a run in which every fetched candle's
`open_time` is already stored writes nothing. -/
theorem binance_dedup_characterization (stored fetched : List Candle) (st : Nat) :
    (∀ c : Candle,
       c ∈ insert_binance_data_lambda stored ⟨200, some fetched⟩
       ↔ c ∈ fetched ∧ ∀ t, latest_open_time stored = some t → t < c.open_time)
    ∧ (∀ w, insert_binance_data stored ⟨st, some fetched⟩ = Except.ok w →
        ∀ c : Candle, c ∈ w ↔ c ∈ fetched ∧ ∀ s ∈ stored, s.open_time ≠ c.open_time)
    ∧ ((∀ c ∈ fetched, ∃ s ∈ stored, s.open_time = c.open_time) →
        insert_binance_data stored ⟨st, some fetched⟩ = Except.ok []
        ∧ insert_binance_data_lambda stored ⟨200, some fetched⟩ = []) := by
  refine ⟨?_, ?_, ?_⟩
  · intro c
    unfold insert_binance_data_lambda
    simp only [ne_eq, not_true_eq_false, if_false]
    cases hlt : latest_open_time stored with
    | none => simp
    | some t => simp [List.mem_filter]
  · intro w hw c
    unfold insert_binance_data at hw
    simp only [Except.ok.injEq] at hw
    subst hw
    simp [List.mem_filter, List.any_eq_true, beq_iff_eq, not_exists]
  · intro hall
    constructor
    · unfold insert_binance_data
      simp only [Except.ok.injEq, List.filter_eq_nil]
      intro c hc
      rcases hall c hc with ⟨s, hs, hseq⟩
      simp [List.any_eq_true]
      exact ⟨s, hs, hseq⟩
    · unfold insert_binance_data_lambda
      simp only [ne_eq, not_true_eq_false, if_false]
      cases hlt : latest_open_time stored with
      | none =>
        cases hfetched : fetched with
        | nil => rfl
        | cons c r =>
          rcases hall c (by rw [hfetched]; exact List.mem_cons_self c r) with ⟨s, hs, _⟩
          rw [latest_open_time_eq_none hlt] at hs
          cases hs
      | some t =>
        rw [List.filter_eq_nil]
        intro c hc
        rcases hall c hc with ⟨s, hs, hseq⟩
        have hle : c.open_time ≤ t := by
          rw [← hseq]; exact le_latest_open_time stored s t hs hlt
        simp [not_lt.mpr hle]

/-- Witness for the amended C1: a run refetching only the stored candle
writes nothing in either variant. -/
theorem binance_dedup_characterization_witness :
    insert_binance_data [mkCandle 5] ⟨200, some [mkCandle 5]⟩ = Except.ok []
    ∧ insert_binance_data_lambda [mkCandle 5] ⟨200, some [mkCandle 5]⟩ = [] :=
  (binance_dedup_characterization [mkCandle 5] [mkCandle 5] 200).2.2 (by decide)

/-- Counterexample to C5: the basic `insert_binance_data` never checks
the status code — on a status-500 response whose body still parses as a
kline array, it proceeds and writes the fetched candle instead of
returning early with nothing written. -/
theorem binance_basic_ignores_status :
    insert_binance_data [] ⟨500, some [mkCandle 7]⟩ = Except.ok [mkCandle 7]
    ∧ [mkCandle 7] ≠ ([] : List Candle) :=
  ⟨rfl, by decide⟩

/-- C5 as amended: the lambda variant writes nothing on a non-200
response and nothing on an empty array; the basic variant also writes
nothing on an empty array, but has no status check at all. -/
theorem binance_short_circuit_amended (stored : List Candle) (resp : BinanceResponse) :
    (resp.status_code ≠ 200 → insert_binance_data_lambda stored resp = [])
    ∧ insert_binance_data_lambda stored ⟨resp.status_code, some []⟩ = []
    ∧ insert_binance_data stored ⟨resp.status_code, some []⟩ = Except.ok [] := by
  refine ⟨fun h => ?_, ?_, rfl⟩
  · unfold insert_binance_data_lambda
    simp [h]
  · unfold insert_binance_data_lambda
    by_cases h : resp.status_code ≠ 200
    · simp [h]
    · simp only [if_neg h]
      cases latest_open_time stored <;> simp

/-- Witness for the amended C5: a 500 response writes nothing in the
lambda variant. -/
theorem binance_short_circuit_amended_witness :
    insert_binance_data_lambda [mkCandle 3] ⟨500, some [mkCandle 9]⟩ = [] :=
  (binance_short_circuit_amended [mkCandle 3] ⟨500, some [mkCandle 9]⟩).1 (by decide)

/-- `norm_title` from `insert_articles`: Python
`t.strip().lower()`. -/
def norm_title (t : String) : String :=
  py_lower (py_strip t)

/-- The normalized dedup key of `insert_articles`: lower-cased trimmed
title paired with the normalized datetime. `normDt` abstracts the
source's `norm_dt` (re-parse with `pd.to_datetime`, fall back to
day-first, strip the timezone and reformat to second precision; `None`
for null or unparsable input). -/
def article_key (normDt : Option String → Option String)
    (title : String) (dt : Option String) : String × Option String :=
  (norm_title title, normDt dt)

/-- `df_articles_new` of `insert_articles` (`scrape_logic.py`
lines 135-146): keep exactly the incoming articles whose normalized key
is not in the set of normalized keys of the stored rows. -/
def select_new_articles (normDt : Option String → Option String)
    (stored incoming : List Article) : List Article :=
  incoming.filter (fun a =>
    !decide (article_key normDt a.title a.datetime
      ∈ stored.map (fun r => article_key normDt r.title r.datetime)))

/-- The rows written by `insert_articles` (`scrape_logic.py`
lines 150-157): the selected articles with their `datetime` re-parsed
and reformatted one final time; `canonDt` abstracts that cleanup
(`pd.to_datetime(..., errors="coerce")` followed by `strftime`, `None`
when the parse gives `NaT`). -/
def insert_articles (normDt canonDt : Option String → Option String)
    (stored incoming : List Article) : List Article :=
  (select_new_articles normDt stored incoming).map
    (fun a => { a with datetime := canonDt a.datetime })

/-- The `articles` table after a run of `insert_articles`: the Supabase
`insert` call appends the written rows. -/
def insert_articles_run (normDt canonDt : Option String → Option String)
    (stored incoming : List Article) : List Article :=
  stored ++ insert_articles normDt canonDt stored incoming

/-- The `value` table after a run of the basic `insert_binance_data`:
on the exception path nothing is written, otherwise the written rows
are appended. -/
def insert_binance_run (stored : List Candle) (resp : BinanceResponse) :
    List Candle :=
  match insert_binance_data stored resp with
  | Except.error _ => stored
  | Except.ok w => stored ++ w

/-- The `value` table after a run of the lambda variant. -/
def insert_binance_run_lambda (stored : List Candle) (resp : BinanceResponse) :
    List Candle :=
  stored ++ insert_binance_data_lambda stored resp

/-- Fields extracted from one article detail page by the scrape loop:
`none` models a missed selector, `p_tags` the list of `dir="ltr"`
paragraph texts. -/
structure DetailPage where
  title_tag : Option String
  date_tag : Option String
  author_tag : Option String
  p_tags : List String
deriving DecidableEq, Repr

/-- `Timestamp.strftime` as invoked on the result of
`pd.to_datetime(..., errors="coerce", dayfirst=True)`: defined on a
real timestamp (`some t`), but the `NaT` produced for unparsable input
(`none`) raises `ValueError: NaTType does not support strftime`.
Timestamps are abstracted to `Nat` and the format step to `fmt`. -/
def strftime_nat (fmt : Nat → String) : Option Nat → Except String String
  | none => Except.error "NaTType does not support strftime"
  | some t => Except.ok (fmt t)

/-- The body of the per-article `try` block of `scrape_articles`
(`scrape_logic.py` lines 64-105): build the article record from the
detail page, defaulting missed selectors to `"N/A"`; `to_datetime`
abstracts `pd.to_datetime(..., errors="coerce", dayfirst=True)` (with
`none` for the `NaT` result) and `polarity` the TextBlob score. The
result is `none` exactly when the block raises and the `except`
handler skips the article. -/
def process_article (to_datetime : String → Option Nat) (fmt : Nat → String)
    (polarity : String → Option ℚ) (link : String) (page : DetailPage) :
    Option Article :=
  let article_title := page.title_tag.getD "N/A"
  let author_name := strip_author_by (page.author_tag.getD "N/A")
  let article_text :=
    if page.p_tags.isEmpty then "N/A" else String.intercalate "\n" page.p_tags
  let mk := fun dt => Article.mk article_title dt author_name link article_text
    (get_sentiment_label (polarity article_text))
  match page.date_tag with
  | none => some (mk none)
  | some raw =>
    match strftime_nat fmt (to_datetime raw) with
    | Except.error _ => none
    | Except.ok s => some (mk (some s))

/-- One iteration of the scrape loop over `results`: append the
processed record, or leave `results` unchanged when the `except`
handler fires. -/
def scrape_article_step (to_datetime : String → Option Nat) (fmt : Nat → String)
    (polarity : String → Option ℚ) (link : String) (page : DetailPage)
    (results : List Article) : List Article :=
  match process_article to_datetime fmt polarity link page with
  | none => results
  | some a => results ++ [a]

/-- The latest close of the filtered window, as read by
`df_value.loc[df_value["open_time_mez"].idxmax(), "close"]` in
`streamlit.py`: the close of the first row attaining the maximal open
time. -/
def latest_close (df : List Candle) : Option ℚ :=
  match latest_open_time df with
  | none => none
  | some t => (df.find? (fun c => c.open_time == t)).map (fun c => c.close)

/-- BTC-mode conversion in `streamlit.py` line 367:
`usd_value = btc_amount * float(latest_close)`. -/
def btc_to_usd (btc_amount close : ℚ) : ℚ :=
  btc_amount * close

/-- USD-mode conversion in `streamlit.py` line 371:
`btc_value = usd_amount / float(latest_close)`. -/
def usd_to_btc (usd_amount close : ℚ) : ℚ :=
  usd_amount / close

/-- Count of filtered articles carrying a given sentiment label,
`(filtered_articles["sentiment"] == lab).sum()` in `streamlit.py`. -/
def count_sentiment (arts : List Article) (lab : String) : Nat :=
  (arts.filter (fun a => a.sentiment == lab)).length

/-- Displayed percentage for a label: `100 * count / total` where
`total = len(filtered_articles)` counts every filtered article. -/
def percent_sentiment (arts : List Article) (lab : String) : ℚ :=
  100 * (count_sentiment arts lab : ℚ) / (arts.length : ℚ)

/-- An article with the given sentiment label and fixed remaining
fields, for concrete windows in witnesses. -/
def mkArticle (lab : String) : Article :=
  ⟨"Bitcoin Surges", some "2024-01-01T10:00:00", "Jane Doe",
   "https://u.today/x", "text", lab⟩

/-- Membership in the selection of non-duplicate articles. -/
theorem mem_select_new_articles (normDt : Option String → Option String)
    (stored incoming : List Article) (a : Article) :
    a ∈ select_new_articles normDt stored incoming
    ↔ a ∈ incoming ∧ ¬ ∃ r ∈ stored,
        article_key normDt r.title r.datetime
          = article_key normDt a.title a.datetime := by
  unfold select_new_articles
  rw [List.mem_filter]
  simp only [Bool.not_eq_true', decide_eq_false_iff_not, List.mem_map]

/-- C4: an incoming article whose normalized key matches a stored row
is not selected for insertion, an incoming article with no such match
is written (with its datetime canonicalized), and — provided the
canonical reformatting is transparent to normalization — re-running the
ingestion against the same listing after a first run inserts nothing. -/
theorem article_dedup_insert_iff
    (normDt canonDt : Option String → Option String)
    (stored incoming : List Article)
    (hcanon : ∀ d, normDt (canonDt d) = normDt d) :
    (∀ a ∈ incoming,
      ((∃ r ∈ stored, article_key normDt r.title r.datetime
          = article_key normDt a.title a.datetime) →
        a ∉ select_new_articles normDt stored incoming)
      ∧ (¬ (∃ r ∈ stored, article_key normDt r.title r.datetime
          = article_key normDt a.title a.datetime) →
        { a with datetime := canonDt a.datetime }
          ∈ insert_articles normDt canonDt stored incoming))
    ∧ insert_articles normDt canonDt
        (insert_articles_run normDt canonDt stored incoming) incoming = [] := by
  constructor
  · intro a ha
    constructor
    · intro hdup hmem
      exact ((mem_select_new_articles normDt stored incoming a).mp hmem).2 hdup
    · intro hnodup
      unfold insert_articles
      exact List.mem_map_of_mem _
        ((mem_select_new_articles normDt stored incoming a).mpr ⟨ha, hnodup⟩)
  · have hsel : select_new_articles normDt
        (insert_articles_run normDt canonDt stored incoming) incoming = [] := by
      unfold select_new_articles
      rw [List.filter_eq_nil_iff]
      intro a ha
      simp only [Bool.not_eq_true', decide_eq_false_iff_not, not_not]
      rw [List.mem_map]
      by_cases hdup : ∃ r ∈ stored, article_key normDt r.title r.datetime
          = article_key normDt a.title a.datetime
      · rcases hdup with ⟨r, hr, hk⟩
        refine ⟨r, ?_, hk⟩
        unfold insert_articles_run
        exact List.mem_append_left _ hr
      · have hmem : a ∈ select_new_articles normDt stored incoming :=
          (mem_select_new_articles normDt stored incoming a).mpr ⟨ha, hdup⟩
        refine ⟨{ a with datetime := canonDt a.datetime }, ?_, ?_⟩
        · unfold insert_articles_run
          exact List.mem_append_right _
            (List.mem_map_of_mem _ hmem)
        · simp [article_key, hcanon]
    unfold insert_articles
    rw [hsel]
    rfl

/-- Witness for C4: inserting one article into an empty table and
re-running against the same listing inserts nothing the second time. -/
theorem article_dedup_insert_iff_witness :
    insert_articles (fun d => d) (fun d => d)
      (insert_articles_run (fun d => d) (fun d => d) [] [mkArticle "positive"])
      [mkArticle "positive"] = [] :=
  (article_dedup_insert_iff (fun d => d) (fun d => d) [] [mkArticle "positive"]
    (fun _ => rfl)).2

/-- C3 behavior at the failing input: when the raw publish-date text is
present but unparsable, `pd.to_datetime(..., errors="coerce")` yields
`NaT`, the chained `.strftime(...)` raises, the per-article handler
catches, and the article is skipped — no record with a missing datetime
is produced, contrary to the claim. -/
theorem unparsable_date_skips_article
    (to_datetime : String → Option Nat) (fmt : Nat → String)
    (polarity : String → Option ℚ) (link raw : String) (page : DetailPage)
    (results : List Article)
    (hraw : page.date_tag = some raw) (hparse : to_datetime raw = none) :
    process_article to_datetime fmt polarity link page = none
    ∧ scrape_article_step to_datetime fmt polarity link page results = results := by
  have hp : process_article to_datetime fmt polarity link page = none := by
    simp only [process_article, hraw, hparse, strftime_nat]
  refine ⟨hp, ?_⟩
  unfold scrape_article_step
  rw [hp]

/-- Witness for C3: a concrete page with an unparsable date leaves the
results list untouched. -/
theorem unparsable_date_skips_article_witness :
    scrape_article_step (fun _ => none) (fun _ => "") (fun _ => none)
      "https://u.today/x" ⟨some "T", some "not a date", some "Author", []⟩ []
      = [] :=
  (unparsable_date_skips_article (fun _ => none) (fun _ => "") (fun _ => none)
    "https://u.today/x" "not a date"
    ⟨some "T", some "not a date", some "Author", []⟩ [] rfl rfl).2

/-- C8: every ingestion operation only appends — after any run of the
article or market-data routines, the new table is the old table with
the written rows appended, so every pre-existing row survives
unchanged. -/
theorem ingestion_append_only
    (normDt canonDt : Option String → Option String)
    (storedA incoming : List Article)
    (storedV : List Candle) (resp : BinanceResponse) :
    (∃ w, insert_articles_run normDt canonDt storedA incoming = storedA ++ w)
    ∧ (∃ w, insert_binance_run storedV resp = storedV ++ w)
    ∧ (∃ w, insert_binance_run_lambda storedV resp = storedV ++ w)
    ∧ (∀ r ∈ storedA, r ∈ insert_articles_run normDt canonDt storedA incoming)
    ∧ (∀ c ∈ storedV, c ∈ insert_binance_run storedV resp)
    ∧ (∀ c ∈ storedV, c ∈ insert_binance_run_lambda storedV resp) := by
  have h2 : ∃ w, insert_binance_run storedV resp = storedV ++ w := by
    unfold insert_binance_run
    cases insert_binance_data storedV resp with
    | error e => exact ⟨[], by simp⟩
    | ok w => exact ⟨w, rfl⟩
  refine ⟨⟨_, rfl⟩, h2, ⟨_, rfl⟩, ?_, ?_, ?_⟩
  · intro r hr
    exact List.mem_append_left _ hr
  · intro c hc
    rcases h2 with ⟨w, hw⟩
    rw [hw]
    exact List.mem_append_left _ hc
  · intro c hc
    exact List.mem_append_left _ hc

/-- Witness for C8: a stored candle survives a market-data run that
writes a new candle. -/
theorem ingestion_append_only_witness :
    mkCandle 1 ∈ insert_binance_run [mkCandle 1] ⟨200, some [mkCandle 2]⟩ :=
  (ingestion_append_only (fun d => d) (fun d => d) [] [] [mkCandle 1]
    ⟨200, some [mkCandle 2]⟩).2.2.2.2.1 (mkCandle 1) (List.mem_singleton.mpr rfl)

/-- C9: around any nonzero latest filtered close price, BTC mode
multiplies and USD mode divides by the close, and the two modes are
mutually inverse. -/
theorem converter_roundtrip (df : List Candle) (a c : ℚ)
    (hclose : latest_close df = some c) (hc : c ≠ 0) :
    btc_to_usd a c = a * c ∧ usd_to_btc a c = a / c
    ∧ usd_to_btc (btc_to_usd a c) c = a ∧ btc_to_usd (usd_to_btc a c) c = a := by
  unfold btc_to_usd usd_to_btc
  refine ⟨rfl, rfl, ?_, ?_⟩
  · exact mul_div_cancel_right₀ a hc
  · exact div_mul_cancel₀ a hc

/-- Witness for C9: converting 2 BTC at a close of 50000 and back
returns 2. -/
theorem converter_roundtrip_witness :
    usd_to_btc (btc_to_usd 2 50000) 50000 = 2
    ∧ btc_to_usd (usd_to_btc 2 50000) 50000 = 2 :=
  ⟨(converter_roundtrip [⟨0, 0, 0, 0, 50000, 0, 59999, 0, 0, 0, 0, "0"⟩]
      2 50000 rfl (by norm_num)).2.2.1,
   (converter_roundtrip [⟨0, 0, 0, 0, 50000, 0, 59999, 0, 0, 0, 0, "0"⟩]
      2 50000 rfl (by norm_num)).2.2.2⟩

/-- Unfolding the per-label count over a cons cell. -/
theorem count_sentiment_cons (a : Article) (t : List Article) (lab : String) :
    count_sentiment (a :: t) lab
      = (if a.sentiment = lab then 1 else 0) + count_sentiment t lab := by
  by_cases h : a.sentiment = lab <;>
    simp [count_sentiment, List.filter_cons, h] <;> omega

/-- The three displayed labels never count more articles than the
window holds. -/
theorem three_counts_le (arts : List Article) :
    count_sentiment arts "positive" + count_sentiment arts "neutral"
      + count_sentiment arts "negative" ≤ arts.length := by
  induction arts with
  | nil => simp [count_sentiment]
  | cons b t ih =>
    rw [count_sentiment_cons, count_sentiment_cons, count_sentiment_cons]
    simp only [List.length_cons]
    by_cases h1 : b.sentiment = "positive" <;>
      by_cases h2 : b.sentiment = "neutral" <;>
        by_cases h3 : b.sentiment = "negative" <;>
          simp [h1, h2, h3] <;> omega

/-- With an article in the window outside the three displayed labels,
the three counts fall strictly short of the window size. -/
theorem three_counts_lt (arts : List Article)
    (h : ∃ a ∈ arts, a.sentiment ≠ "positive" ∧ a.sentiment ≠ "neutral"
      ∧ a.sentiment ≠ "negative") :
    count_sentiment arts "positive" + count_sentiment arts "neutral"
      + count_sentiment arts "negative" < arts.length := by
  induction arts with
  | nil => simp at h
  | cons b t ih =>
    rw [count_sentiment_cons, count_sentiment_cons, count_sentiment_cons]
    simp only [List.length_cons]
    rcases h with ⟨a, ha, h1, h2, h3⟩
    rcases List.mem_cons.mp ha with heq | hat
    · subst heq
      simp only [if_neg h1, if_neg h2, if_neg h3]
      have := three_counts_le t
      omega
    · have hlt := ih ⟨a, hat, h1, h2, h3⟩
      by_cases hb1 : b.sentiment = "positive" <;>
        by_cases hb2 : b.sentiment = "neutral" <;>
          by_cases hb3 : b.sentiment = "negative" <;>
            simp [hb1, hb2, hb3] <;> omega

/-- C10: each displayed percentage divides a label count by the size of
the whole filtered window (articles labelled `unknown` or anything else
included), so a window holding such an article makes the three
displayed percentages sum to strictly less than 100. -/
theorem sentiment_percent_sum_lt_100 (arts : List Article)
    (h : ∃ a ∈ arts, a.sentiment ≠ "positive" ∧ a.sentiment ≠ "neutral"
      ∧ a.sentiment ≠ "negative") :
    count_sentiment arts "positive" + count_sentiment arts "neutral"
      + count_sentiment arts "negative" < arts.length
    ∧ percent_sentiment arts "positive" + percent_sentiment arts "neutral"
      + percent_sentiment arts "negative" < 100 := by
  have hlt := three_counts_lt arts h
  refine ⟨hlt, ?_⟩
  have hlen : 0 < arts.length := by
    rcases h with ⟨a, ha, _⟩
    exact List.length_pos.mpr (List.ne_nil_of_mem ha)
  have hlenQ : (0 : ℚ) < (arts.length : ℚ) := by exact_mod_cast hlen
  unfold percent_sentiment
  rw [div_add_div_same, div_add_div_same, div_lt_iff hlenQ]
  have hltQ : (count_sentiment arts "positive" : ℚ)
      + (count_sentiment arts "neutral" : ℚ)
      + (count_sentiment arts "negative" : ℚ) < (arts.length : ℚ) := by
    exact_mod_cast hlt
  nlinarith [hltQ]

/-- Witness for C10: a window of one positive and one unknown article
displays 50 + 0 + 0 percent, strictly below 100. -/
theorem sentiment_percent_sum_lt_100_witness :
    percent_sentiment [mkArticle "positive", mkArticle "unknown"] "positive"
      + percent_sentiment [mkArticle "positive", mkArticle "unknown"] "neutral"
      + percent_sentiment [mkArticle "positive", mkArticle "unknown"] "negative"
      < 100 :=
  (sentiment_percent_sum_lt_100 [mkArticle "positive", mkArticle "unknown"]
    ⟨mkArticle "unknown", by decide, by decide, by decide, by decide⟩).2
